import Mathlib

/-!
Verification development for the tool execution and retrieval subsystem of a
tool-augmented conversational agent (DIAL general-purpose agent).

Strings from the Python source are embedded as `List Char` (Python `str`);
`Option` models Python `None`; association lists model Python `dict`
(insertion-ordered, unique keys).  Stateful behaviour is embedded as explicit
state passing, and calls to external collaborators (document text extraction,
the sentence-embedding model, the downstream LLM stream) are embedded as
oracle function parameters.  Side effects that a claim talks about (cache
writes, chunking, embedding, transcript/final-sink writes) are additionally
recorded in explicit event logs so that "never re-invokes X" becomes a
statement about the log.
-/

/-! ## Shared Python string/list primitives -/

/-- Python truthiness of an optional string: `None` and the empty string are
falsy (`if not content:`). -/
def pyFalsy (s : Option (List Char)) : Bool :=
  match s with
  | none => true
  | some c => c.isEmpty

/-- Python list indexing `xs[i]`: a negative index counts from the end
(`xs[len(xs)+i]`); an index out of range raises `IndexError`, embedded as
`none`. -/
def pyGet {α : Type} (xs : List α) (i : Int) : Option α :=
  let j : Int := if i < 0 then i + xs.length else i
  if 0 ≤ j ∧ j < xs.length then xs.get? j.toNat else none

/-! ## FileContentExtractionTool (src/task/tools/files/file_content_extraction_tool.py)

The embedding below mirrors `FileContentExtractionTool._execute` lines 84-115
restricted to the computation of the returned `content`; the stage writes
(lines 70-81, 111-113) do not affect the returned value and are omitted.

A faithfulness note that matters for the pagination claims: in the source,
the pagination statements (lines 100-110) are indented one level deeper than
the surrounding statements and are preceded only by comment lines, so Python
attaches them to the `if not content:` statement on line 87.  The pagination
logic therefore executes only when extraction yielded no content (in which
case `content` is the fixed error string), and extracted content is returned
unchanged whatever its length and whatever `page` was requested. -/

/-- The error string assigned when no content could be extracted
(line 88 of the file tool, line 123 of the RAG tool). -/
def errFileNotFound : List Char := "Error: File content not found.".data

/-- The out-of-range page message, line 105:
`f"Error: Page {page} does not exist. Total pages: {total_pages}"`. -/
def pageNotExistMsg (page : Int) (total_pages : Nat) : List Char :=
  "Error: Page ".data ++ (toString page).data
    ++ " does not exist. Total pages: ".data ++ (toString total_pages).data

/-- The pagination footer, line 110:
`f"\n\n**Page #{page}. Total pages: {total_pages}**"` appended to the page
content. -/
def pageFooter (page : Int) (total_pages : Nat) : List Char :=
  "\n\n**Page #".data ++ (toString page).data
    ++ ". Total pages: ".data ++ (toString total_pages).data ++ "**".data

/-- Embedding of `FileContentExtractionTool._execute` (content computation).
`extracted` is the result of `DialFileContentExtractor.extract_text`
(`none` = Python `None`); `page` is the `page` argument.  Per the source
indentation, the whole pagination block is the body of `if not content:`. -/
def fileExtractExecute (extracted : Option (List Char)) (page : Int) : List Char :=
  if pyFalsy extracted then
    -- line 88: content = "Error: File content not found."
    let content := errFileNotFound
    -- lines 100-110, executed only inside the `if not content:` branch
    let page_size : Nat := 10000
    let total_pages : Nat := (content.length + page_size - 1) / page_size
    if page < 1 then
      -- line 103 sets page = 1 but no slicing happens (elif/else skipped)
      content
    else if (total_pages : Int) < page then
      pageNotExistMsg page total_pages
    else
      let start_index : Nat := (page - 1).toNat * page_size
      ((content.drop start_index).take page_size) ++ pageFooter page total_pages
  else
    (extracted.getD [])

/-- A 25,000-character extracted document, the concrete input of the
pagination end-to-end scenario. -/
def bigDoc : List Char := List.replicate 25000 'a'

/-! ## RAG tool: cache key (src/task/tools/rag/rag_tool.py line 110) -/

/-- Embedding of `cache_document_key = f"{tool_call_params.conversation_id}_{file_url}"`. -/
def cacheDocumentKey (conversationId fileUrl : List Char) : List Char :=
  conversationId ++ '_' :: fileUrl

/-! ## RAG tool: faiss IndexFlatL2 and the retrieval step

The index stores vectors in insertion order (line 131 adds all chunk
embeddings at once, so index position `i` corresponds to `chunks[i]`).
`search` with `k` neighbours returns the `k` smallest squared-L2 distances;
per the documented faiss behaviour, when the index holds fewer than `k`
vectors the missing result slots are padded with label `-1`.  Vector
components are embedded as integers (a stand-in for float32; the claims
settled here depend only on result counts and padding, which are uniform in
the distance values). -/

/-- Squared L2 distance, the metric of `faiss.IndexFlatL2`. -/
def l2sq (u v : List Int) : Int :=
  (List.zipWith (fun a b => (a - b) * (a - b)) u v).sum

/-- Ordering of (label, distance) pairs used by the search: by distance,
ties broken by the smaller label (insertion order). -/
def distLe (p q : Int × Int) : Prop :=
  p.2 < q.2 ∨ (p.2 = q.2 ∧ p.1 ≤ q.1)

instance : DecidableRel distLe := fun p q => by
  unfold distLe; infer_instance

/-- Embedding of `index.search(query, k)` restricted to the label array of
the first and only query row:
labels of the stored vectors sorted by distance to `query`, truncated to
`k`, padded with `-1` when fewer than `k` vectors are stored. -/
def searchLabels (xb : List (List Int)) (query : List Int) (k : Nat) : List Int :=
  let pairs : List (Int × Int) :=
    ((xb.map (fun v => l2sq v query)).enum).map (fun p => ((p.1 : Int), p.2))
  let sorted := List.insertionSort distLe pairs
  ((sorted.map Prod.fst).take k) ++ List.replicate (k - xb.length) (-1 : Int)

/-- Embedding of line 141, `[chunks[idx] for idx in indices[0]]`: look each
label up with Python indexing; an `IndexError` anywhere aborts the
comprehension (`none`). -/
def retrievedChunksOf {α : Type} (chunks : List α) : List Int → Option (List α)
  | [] => some []
  | i :: is =>
    match pyGet chunks i, retrievedChunksOf chunks is with
    | some c, some cs => some (c :: cs)
    | _, _ => none

/-- The RAG retrieval step (lines 139-141): search the index with `k = 3`
and map the returned labels back to chunk texts. -/
def ragRetrieve (chunks : List (List Char)) (xb : List (List Int)) (queryEmbedding : List Int) :
    Option (List (List Char)) :=
  retrievedChunksOf chunks (searchLabels xb queryEmbedding 3)

/-! ## DocumentCache

Modelled from the spec: `task/tools/rag/document_cache.py` is not among the
provided sources (only its callers are).  Per spec section 4.3 the cache is a
keyed store with `get(key) -> entry | absent` and `set(key, index, chunks)`,
behaving as a centralized dict; the bounded-eviction policy is irrelevant to
the claims settled here and is not modelled. -/

/-- A cache entry: the vector index and the ordered chunk list. -/
abbrev DocCacheEntry : Type := List (List Int) × List (List Char)

/-- The document cache as an association list keyed by the composite key. -/
abbrev DocumentCache : Type := List (List Char × DocCacheEntry)

/-- Embedding of `document_cache.get(key)`. -/
def cacheGet (cache : DocumentCache) (key : List Char) : Option DocCacheEntry :=
  (cache.find? (fun p => decide (p.1 = key))).map Prod.snd

/-- Embedding of `document_cache.set(key, index, chunks)`. -/
def cacheSet (cache : DocumentCache) (key : List Char) (entry : DocCacheEntry) : DocumentCache :=
  (key, entry) :: cache.filter (fun p => decide (p.1 ≠ key))

/-! ## RAG tool: _execute (src/task/tools/rag/rag_tool.py lines 91-181) -/

/-- The observable effects of one `RagTool._execute` run, in program order. -/
inductive RagEvent : Type
  | extractText   -- DialFileContentExtractor(...).extract_text (line 119)
  | splitText     -- self.text_splitter.split_text (line 125)
  | encodeChunks  -- self.model.encode(chunks) (line 127)
  | indexAdd      -- index.add(...) (line 131)
  | cacheSet      -- self.document_cache.set(...) (line 134)
  | encodeQuery   -- self.model.encode(request) (line 136)
  | generate      -- the streamed generation call (lines 153-169)
deriving DecidableEq

/-- External collaborators of `RagTool._execute`, embedded as oracles:
document text extraction, the recursive text splitter, the sentence
embedding model, and the downstream generation stream (mapping the
augmented prompt to the accumulated streamed content). -/
structure RagOracles : Type where
  extractText : List Char → Option (List Char)
  splitText : List Char → List (List Char)
  encode : List Char → List Int
  generate : List Char → List Char

/-- Embedding of `RagTool.__augmentation` (lines 173-181). -/
def augmentedPrompt (request : List Char) (chunks : List (List Char)) : List Char :=
  let base := "Use the following retrieved chunks from the document to answer the question:\n\n".data
  let withChunks := chunks.enum.foldl
    (fun acc p =>
      acc ++ "Chunk ".data ++ (toString (p.1 + 1)).data ++ ":\n".data ++ p.2 ++ "\n\n".data)
    base
  withChunks ++ "Question: ".data ++ request ++ "\n\nAnswer:".data

/-- The shared tail of `RagTool._execute` (lines 136-171): encode the
request, search the index with `k = 3`, map labels to chunks, build the
augmented prompt and run generation.  The first component is the returned
string (`none` embeds an uncaught `IndexError` on line 141); the cache is
returned unchanged; `events` is the log so far. -/
def ragGenerationStep (o : RagOracles) (cache : DocumentCache) (index : List (List Int))
    (chunks : List (List Char)) (request : List Char) (events : List RagEvent) :
    Option (List Char) × DocumentCache × List RagEvent :=
  let qe := o.encode request
  match retrievedChunksOf chunks (searchLabels index qe 3) with
  | none => (none, cache, events ++ [RagEvent.encodeQuery])
  | some retrieved =>
    (some (o.generate (augmentedPrompt request retrieved)), cache,
      events ++ [RagEvent.encodeQuery, RagEvent.generate])

/-- Embedding of `RagTool._execute` (lines 91-171): resolve the composite
cache key; on a hit reuse the cached `(index, chunks)`; on a miss extract,
split, embed, index and cache before retrieval.  Stage writes do not affect
the returned value, the cache or the event log and are omitted. -/
def ragExecute (o : RagOracles) (cache : DocumentCache)
    (conversationId request fileUrl : List Char) :
    Option (List Char) × DocumentCache × List RagEvent :=
  let key := cacheDocumentKey conversationId fileUrl
  match cacheGet cache key with
  | some entry => ragGenerationStep o cache entry.1 entry.2 request []
  | none =>
    match o.extractText fileUrl with
    | none =>
      -- line 121: `if not text_content:` (None case)
      (some errFileNotFound, cache, [RagEvent.extractText])
    | some text =>
      if text.isEmpty then
        -- line 121: `if not text_content:` (empty-string case)
        (some errFileNotFound, cache, [RagEvent.extractText])
      else
        let chunks := o.splitText text
        let index := chunks.map o.encode
        let cache2 := cacheSet cache key (index, chunks)
        ragGenerationStep o cache2 index chunks request
          [RagEvent.extractText, RagEvent.splitText, RagEvent.encodeChunks,
            RagEvent.indexAdd, RagEvent.cacheSet]

/-! ## DeploymentTool (src/task/tools/deployment/base.py) -/

/-- Message roles used by the embedded results. -/
inductive MsgRole : Type
  | system
  | user
  | tool
deriving DecidableEq

/-- A streamed attachment (the fields forwarded on lines 82-89). -/
structure Attachment : Type where
  type : Option (List Char)
  title : Option (List Char)
  data : Option (List Char)
  url : Option (List Char)
  reference_url : Option (List Char)
  reference_type : Option (List Char)
deriving DecidableEq

/-- One stream increment's delta: optional text content and the optional
attachment list of `delta.custom_content`. -/
structure StreamDelta : Type where
  content : Option (List Char)
  attachments : Option (List Attachment)

/-- A stream chunk; `none` embeds a chunk skipped by line 66
(`not chunk.choices or not chunk.choices[0].delta`). -/
abbrev StreamChunk : Type := Option StreamDelta

/-- The downstream chat-completion request issued on lines 49-59:
the sole user message's content (the extracted `prompt`, possibly `None`)
and the `custom_fields.configuration` payload (the remaining arguments). -/
structure DialRequest (V : Type) : Type where
  deployment : List Char
  userContent : Option V
  configuration : List (List Char × V)

/-- The structured result returned on lines 92-97. -/
structure ToolMessage : Type where
  role : MsgRole
  content : List Char
  attachments : List Attachment
  toolCallId : List Char
deriving DecidableEq

/-- One transcript-sink write: appended text or a mirrored attachment. -/
inductive StageItem : Type
  | content (s : List Char)
  | attach (a : Attachment)
deriving DecidableEq

/-- Python `arguments.get(k)` on a parsed JSON object (association list
with unique keys, insertion-ordered). -/
def dictGet {V : Type} (d : List (List Char × V)) (k : List Char) : Option V :=
  (d.find? (fun p => decide (p.1 = k))).map Prod.snd

/-- Python `arguments.pop(k, None)` followed by `{**arguments}`: the
object without the key `k`. -/
def dictPop {V : Type} (d : List (List Char × V)) (k : List Char) : List (List Char × V) :=
  d.filter (fun p => decide (p.1 ≠ k))

/-- The key "prompt" extracted and removed on lines 32-35. -/
def promptKey : List Char := "prompt".data

/-- Loop state of the stream-consumption loop (lines 62-89). -/
structure StreamAcc : Type where
  content : List Char
  attachments : List Attachment
  stage : List StageItem

/-- One iteration of the stream loop (lines 64-89): a skipped chunk changes
nothing; text content (if truthy) is appended to the stage and accumulated;
attachments (if the custom content and its list are truthy) are accumulated
and mirrored to the stage. -/
def streamStep (acc : StreamAcc) (c : StreamChunk) : StreamAcc :=
  match c with
  | none => acc
  | some d =>
    let acc1 :=
      match d.content with
      | some t =>
        if t.isEmpty then acc
        else StreamAcc.mk (acc.content ++ t) acc.attachments
          (acc.stage ++ [StageItem.content t])
      | none => acc
    match d.attachments with
    | some atts =>
      if atts.isEmpty then acc1
      else StreamAcc.mk acc1.content (acc1.attachments ++ atts)
        (acc1.stage ++ atts.map StageItem.attach)
    | none => acc1

/-- The text a stream chunk contributes to the accumulated content. -/
def chunkText (c : StreamChunk) : List Char :=
  ((c.bind StreamDelta.content).getD [])

/-- The attachments a stream chunk contributes to the accumulated list. -/
def chunkAtts (c : StreamChunk) : List Attachment :=
  ((c.bind StreamDelta.attachments).getD [])

/-- Embedding of `DeploymentTool._execute` (lines 27-97): extract and remove
`prompt` from the parsed arguments, issue the downstream streaming request
with the remaining pairs as `custom_fields.configuration`, consume the
stream accumulating text and attachments, and return the tool message with
role `tool` and the originating tool-call id.  Returns the issued request,
the returned message and the transcript writes. -/
def deploymentExecute {V : Type} (deployment : List Char) (args : List (List Char × V))
    (stream : List StreamChunk) (toolCallId : List Char) :
    DialRequest V × ToolMessage × List StageItem :=
  let prompt := dictGet args promptKey
  let config := dictPop args promptKey
  let final := stream.foldl streamStep (StreamAcc.mk [] [] [])
  (DialRequest.mk deployment prompt config,
    ToolMessage.mk MsgRole.tool final.content final.attachments toolCallId,
    final.stage)

/-! ## ImageGenerationTool (src/task/tools/deployment/image_generation_tool.py) -/

/-- Content type "image/png". -/
def pngType : List Char := "image/png".data

/-- Content type "image/jpeg". -/
def jpegType : List Char := "image/jpeg".data

/-- Line 24: `attachment.type in ["image/png", "image/jpeg"]`. -/
def isImageAttachment (a : Attachment) : Bool :=
  decide (a.type = some pngType) || decide (a.type = some jpegType)

/-- Line 25: `f"\n\r![image]({attachment.url})\n\r"`; a `None` url renders
as the Python string "None". -/
def mdImage (u : Option (List Char)) : List Char :=
  "\n\r![image](".data ++ (u.getD "None".data) ++ ")\n\r".data

/-- The fixed confirmation sentence of line 31. -/
def confirmationSentence : List Char :=
  "The image has been successfully generated according to request and shown to user!".data

/-- Embedding of `ImageGenerationTool._execute` (lines 12-33) applied to the
base result: when the message carries attachments, each attachment of an
image content type is rendered to the final-answer sink (`choice`) as a
markdown image reference, and an absent content is replaced by the fixed
confirmation sentence; with no attachments the message is returned
unchanged.  Per the source indentation, both the rendering loop (lines
23-25) and the content substitution (lines 30-31) are inside the
attachments-present branch of line 21.  Returns the final message and the
final-answer-sink writes. -/
def imageGenExecute (m : ToolMessage) : ToolMessage × List (List Char) :=
  if m.attachments.isEmpty then
    (m, [])
  else
    let choiceWrites := (m.attachments.filter isImageAttachment).map (fun a => mdImage a.url)
    let content := if m.content.isEmpty then confirmationSentence else m.content
    (ToolMessage.mk m.role content m.attachments m.toolCallId, choiceWrites)

/-! ## Concrete instances used to witness the hypothesised theorems -/

/-- Oracles whose document extraction yields nothing. -/
def emptyOracles : RagOracles :=
  RagOracles.mk (fun _ => none) (fun t => [t]) (fun _ => []) (fun p => p)

/-- Oracles for a cached one-chunk document. -/
def hitOracles : RagOracles :=
  RagOracles.mk (fun _ => some ['t']) (fun t => [t]) (fun _ => [0]) (fun p => p)

/-- A cache holding one entry for conversation `c` and file url `u`. -/
def hitCache : DocumentCache :=
  [(cacheDocumentKey ['c'] ['u'], ([[0]], [['X']]))]

/-- A PNG attachment with a display url. -/
def samplePng : Attachment :=
  Attachment.mk (some pngType) none none (some "u".data) none none

/-- A parsed argument payload with a single non-prompt key. -/
def sizeOnlyArgs : List (List Char × List Char) :=
  [("size".data, "1024x1024".data)]

/-! ## Helper lemmas -/

theorem streamStep_content (acc : StreamAcc) (c : StreamChunk) :
    (streamStep acc c).content = acc.content ++ chunkText c := by
  cases c with
  | none => simp [streamStep, chunkText]
  | some d =>
    obtain ⟨dc, da⟩ := d
    cases dc with
    | none =>
      cases da with
      | none => simp [streamStep, chunkText]
      | some atts =>
        by_cases h : atts.isEmpty <;> simp [streamStep, chunkText, h]
    | some t =>
      by_cases ht : t.isEmpty
      · have ht' : t = [] := List.isEmpty_iff.mp ht
        cases da with
        | none => simp [streamStep, chunkText, ht, ht']
        | some atts =>
          by_cases h : atts.isEmpty <;> simp [streamStep, chunkText, ht, ht', h]
      · cases da with
        | none => simp [streamStep, chunkText, ht]
        | some atts =>
          by_cases h : atts.isEmpty <;> simp [streamStep, chunkText, ht, h]

theorem streamStep_attachments (acc : StreamAcc) (c : StreamChunk) :
    (streamStep acc c).attachments = acc.attachments ++ chunkAtts c := by
  cases c with
  | none => simp [streamStep, chunkAtts]
  | some d =>
    obtain ⟨dc, da⟩ := d
    cases dc with
    | none =>
      cases da with
      | none => simp [streamStep, chunkAtts]
      | some atts =>
        by_cases h : atts.isEmpty
        · have h' : atts = [] := List.isEmpty_iff.mp h
          simp [streamStep, chunkAtts, h, h']
        · simp [streamStep, chunkAtts, h]
    | some t =>
      by_cases ht : t.isEmpty <;>
      · cases da with
        | none => simp [streamStep, chunkAtts, ht]
        | some atts =>
          by_cases h : atts.isEmpty
          · have h' : atts = [] := List.isEmpty_iff.mp h
            simp [streamStep, chunkAtts, ht, h, h']
          · simp [streamStep, chunkAtts, ht, h]

theorem foldl_streamStep_spec (stream : List StreamChunk) (acc : StreamAcc) :
    (stream.foldl streamStep acc).content = acc.content ++ (stream.map chunkText).flatten ∧
    (stream.foldl streamStep acc).attachments
      = acc.attachments ++ (stream.map chunkAtts).flatten := by
  induction stream generalizing acc with
  | nil => simp
  | cons c cs ih =>
    simp only [List.foldl_cons, List.map_cons, List.flatten_cons]
    obtain ⟨ih1, ih2⟩ := ih (streamStep acc c)
    rw [ih1, ih2, streamStep_content, streamStep_attachments,
      List.append_assoc, List.append_assoc]
    exact ⟨rfl, rfl⟩

/-! ## Claim theorems -/

/-- Claim C2 (code_bug evaluation): for a successfully extracted
25,000-character document, the tool returns the whole content unchanged for
page 1, page 3 and page 4 — no slicing, no footer and no out-of-range
error.  The pagination block of the source is indented under
`if not content:` and is therefore unreachable whenever extraction
succeeded, contradicting the tool's own docstring "Files >10,000 chars are
paginated". -/
theorem fileExtract_pagination_unreachable :
    fileExtractExecute (some bigDoc) 1 = bigDoc ∧
    fileExtractExecute (some bigDoc) 3 = bigDoc ∧
    fileExtractExecute (some bigDoc) 4 = bigDoc :=
  ⟨rfl, rfl, rfl⟩

/-- Claim C3 (code_bug evaluation): for a successfully extracted
25,000-character document, a page-0 request is not clamped to page 1's
content and a page-4 request yields no "does not exist" error: both return
the full content unchanged, because the clamp and range check live in the
pagination block that only runs when extraction yielded nothing. -/
theorem fileExtract_no_clamp_no_range_error :
    fileExtractExecute (some bigDoc) 0 = bigDoc ∧
    fileExtractExecute (some bigDoc) 4 = bigDoc :=
  ⟨rfl, rfl⟩

/-- Claim C4 (counterexample): two distinct conversation ids can produce the
same composite cache key when one of them contains the separator character:
conversation "a" with url "b_c" and conversation "a_b" with url "c" share
the key "a_b_c". -/
theorem cacheKey_collision :
    cacheDocumentKey "a".data "b_c".data = cacheDocumentKey "a_b".data "c".data ∧
    "a".data ≠ "a_b".data := by
  constructor
  · rfl
  · decide

/-- Claim C4 (amended): when neither conversation identifier contains the
separator character, distinct conversations always get distinct composite
cache keys, whatever the document urls are. -/
theorem cacheKey_injective_no_separator (c1 : List Char) :
    ∀ (c2 u1 u2 : List Char), '_' ∉ c1 → '_' ∉ c2 → c1 ≠ c2 →
      cacheDocumentKey c1 u1 ≠ cacheDocumentKey c2 u2 := by
  induction c1 with
  | nil =>
    intro c2 u1 u2 _ h2 hne heq
    cases c2 with
    | nil => exact hne rfl
    | cons b bs =>
      simp only [cacheDocumentKey, List.nil_append, List.cons_append, List.cons.injEq] at heq
      exact h2 (heq.1 ▸ List.mem_cons_self b bs)
  | cons a as ih =>
    intro c2 u1 u2 h1 h2 hne heq
    cases c2 with
    | nil =>
      simp only [cacheDocumentKey, List.nil_append, List.cons_append, List.cons.injEq] at heq
      exact h1 (heq.1 ▸ List.mem_cons_self a as)
    | cons b bs =>
      simp only [cacheDocumentKey, List.cons_append, List.cons.injEq] at heq
      obtain ⟨hab, htail⟩ := heq
      have h1' : '_' ∉ as := fun hm => h1 (List.mem_cons_of_mem a hm)
      have h2' : '_' ∉ bs := fun hm => h2 (List.mem_cons_of_mem b hm)
      have hne' : as ≠ bs := by
        intro hab2
        exact hne (by rw [hab, hab2])
      exact ih bs u1 u2 h1' h2' hne' htail

/-- Witness for the amended claim C4 at concrete identifiers. -/
theorem cacheKey_injective_no_separator_witness :
    ('_' ∉ ['a']) ∧ ('_' ∉ ['b']) ∧ (['a'] ≠ ['b']) ∧
    cacheDocumentKey ['a'] ['u'] ≠ cacheDocumentKey ['b'] ['v'] :=
  ⟨by decide, by decide, by decide,
    cacheKey_injective_no_separator ['a'] ['b'] ['u'] ['v'] (by decide) (by decide) (by decide)⟩

/-- Claim C7: the deployment proxy extracts and removes `prompt` from the
parsed arguments and sends it as the sole user message; every remaining
key/value pair is forwarded unchanged as the configuration payload (none
dropped); on stream completion the returned message has role `tool`, the
accumulated text of all increments in arrival order, all streamed
attachments in arrival order, and the originating tool-call id. -/
theorem deploymentExecute_contract {V : Type} (deployment : List Char)
    (args : List (List Char × V)) (stream : List StreamChunk) (toolCallId : List Char) :
    (deploymentExecute deployment args stream toolCallId).1.userContent
        = dictGet args promptKey ∧
    (deploymentExecute deployment args stream toolCallId).1.configuration
        = dictPop args promptKey ∧
    (∀ kv, kv ∈ (deploymentExecute deployment args stream toolCallId).1.configuration
        ↔ (kv ∈ args ∧ kv.1 ≠ promptKey)) ∧
    (deploymentExecute deployment args stream toolCallId).2.1.role = MsgRole.tool ∧
    (deploymentExecute deployment args stream toolCallId).2.1.content
        = (stream.map chunkText).flatten ∧
    (deploymentExecute deployment args stream toolCallId).2.1.attachments
        = (stream.map chunkAtts).flatten ∧
    (deploymentExecute deployment args stream toolCallId).2.1.toolCallId = toolCallId := by
  obtain ⟨hc, ha⟩ := foldl_streamStep_spec stream (StreamAcc.mk [] [] [])
  refine ⟨rfl, rfl, ?_, rfl, ?_, ?_, rfl⟩
  · intro kv
    simp [deploymentExecute, dictPop, List.mem_filter]
  · simpa [deploymentExecute] using hc
  · simpa [deploymentExecute] using ha

/-- Claim C8 (counterexample): an image-generation execution whose base
result carries no attachments and no textual content keeps the empty
content — the fixed confirmation sentence is not substituted, because the
substitution statement is inside the attachments-present branch. -/
theorem imageGen_no_substitution_without_attachments :
    (imageGenExecute (ToolMessage.mk MsgRole.tool [] [] [])).1.content = [] ∧
    ([] : List Char) ≠ confirmationSentence :=
  ⟨rfl, by decide⟩

/-- Claim C8 (amended): whenever the base result carries at least one
attachment and its textual content is absent, the image-generation tool
replaces the content with the fixed confirmation sentence. -/
theorem imageGen_substitutes_confirmation (m : ToolMessage)
    (hatt : m.attachments ≠ []) (hc : m.content = []) :
    (imageGenExecute m).1.content = confirmationSentence := by
  have h : m.attachments.isEmpty = false := by
    cases hm : m.attachments with
    | nil => exact absurd hm hatt
    | cons a l => simp
  simp [imageGenExecute, h, hc]

/-- Witness for the amended claim C8 at a concrete message. -/
theorem imageGen_substitutes_confirmation_witness :
    (ToolMessage.mk MsgRole.tool [] [samplePng] []).attachments ≠ [] ∧
    (ToolMessage.mk MsgRole.tool [] [samplePng] []).content = [] ∧
    (imageGenExecute (ToolMessage.mk MsgRole.tool [] [samplePng] [])).1.content
      = confirmationSentence :=
  ⟨by simp, rfl,
    imageGen_substitutes_confirmation (ToolMessage.mk MsgRole.tool [] [samplePng] [])
      (by simp) rfl⟩

/-- Claim C9: the image-generation tool renders to the final-answer sink
exactly those returned attachments whose content type is image/png or
image/jpeg, each as a markdown image reference to the attachment url, and
leaves the full attachment list recorded unchanged in the result. -/
theorem imageGen_inline_rendering (m : ToolMessage) :
    (imageGenExecute m).2
        = (m.attachments.filter isImageAttachment).map (fun a => mdImage a.url) ∧
    (imageGenExecute m).1.attachments = m.attachments := by
  by_cases h : m.attachments.isEmpty
  · have h' : m.attachments = [] := List.isEmpty_iff.mp h
    simp [imageGenExecute, h, h']
  · simp [imageGenExecute, h]

/-- Claim C10: a parsed argument payload without a `prompt` key does not
fail locally: the downstream request is issued with an absent user-message
content, and every key actually present is forwarded as the configuration
payload. -/
theorem deploymentExecute_no_prompt {V : Type} (deployment : List Char)
    (args : List (List Char × V)) (stream : List StreamChunk) (toolCallId : List Char)
    (h : dictGet args promptKey = none) :
    (deploymentExecute deployment args stream toolCallId).1.userContent = none ∧
    (deploymentExecute deployment args stream toolCallId).1.configuration = args := by
  have hfind : args.find? (fun p => decide (p.1 = promptKey)) = none := by
    cases hf : args.find? (fun p => decide (p.1 = promptKey)) with
    | none => rfl
    | some kv => simp [dictGet, hf] at h
  refine ⟨?_, ?_⟩
  · simp [deploymentExecute, dictGet, hfind]
  · have hall := List.find?_eq_none.mp hfind
    simp only [deploymentExecute, dictPop]
    rw [List.filter_eq_self]
    intro kv hkv
    have := hall kv hkv
    simp only [decide_eq_true_eq] at this ⊢
    exact this

/-- Witness for claim C10 at a concrete payload without a prompt key. -/
theorem deploymentExecute_no_prompt_witness :
    dictGet sizeOnlyArgs promptKey = none ∧
    (deploymentExecute "dall-e-3".data sizeOnlyArgs [] [] ).1.userContent = none ∧
    (deploymentExecute "dall-e-3".data sizeOnlyArgs [] [] ).1.configuration = sizeOnlyArgs :=
  ⟨by decide,
    (deploymentExecute_no_prompt "dall-e-3".data sizeOnlyArgs [] [] (by decide)).1,
    (deploymentExecute_no_prompt "dall-e-3".data sizeOnlyArgs [] [] (by decide)).2⟩

/-- Claim C5: when the cache misses and document text extraction yields no
text, the RAG tool returns the textual error result immediately, the cache
is unchanged, and the only effect performed is the extraction call itself —
no chunking, no chunk embedding, no index construction and no cache write. -/
theorem rag_no_text_error_leaves_cache (o : RagOracles) (cache : DocumentCache)
    (conversationId request fileUrl : List Char)
    (hmiss : cacheGet cache (cacheDocumentKey conversationId fileUrl) = none)
    (hempty : pyFalsy (o.extractText fileUrl) = true) :
    ragExecute o cache conversationId request fileUrl
      = (some errFileNotFound, cache, [RagEvent.extractText]) := by
  simp only [ragExecute, hmiss]
  cases hx : o.extractText fileUrl with
  | none => simp
  | some t =>
    have ht : t.isEmpty = true := by simpa [pyFalsy, hx] using hempty
    simp [ht]

/-- Witness for claim C5 at a concrete empty cache and empty extraction. -/
theorem rag_no_text_error_leaves_cache_witness :
    cacheGet [] (cacheDocumentKey ['c'] ['u']) = none ∧
    pyFalsy (emptyOracles.extractText ['u']) = true ∧
    ragExecute emptyOracles [] ['c'] ['r'] ['u']
      = (some errFileNotFound, [], [RagEvent.extractText]) :=
  ⟨rfl, rfl, rag_no_text_error_leaves_cache emptyOracles [] ['c'] ['r'] ['u'] rfl rfl⟩

/-- Claim C6: when the composite cache key is present, the RAG tool reuses
the cached entry: the cache is returned unchanged and the event log contains
no document text extraction, no text splitting, no chunk embedding and no
cache write (only the query embedding and the generation call happen). -/
theorem rag_cache_hit_no_rebuild (o : RagOracles) (cache : DocumentCache)
    (conversationId request fileUrl : List Char) (entry : DocCacheEntry)
    (hhit : cacheGet cache (cacheDocumentKey conversationId fileUrl) = some entry) :
    (ragExecute o cache conversationId request fileUrl).2.1 = cache ∧
    RagEvent.extractText ∉ (ragExecute o cache conversationId request fileUrl).2.2 ∧
    RagEvent.splitText ∉ (ragExecute o cache conversationId request fileUrl).2.2 ∧
    RagEvent.encodeChunks ∉ (ragExecute o cache conversationId request fileUrl).2.2 ∧
    RagEvent.cacheSet ∉ (ragExecute o cache conversationId request fileUrl).2.2 := by
  simp only [ragExecute, hhit, ragGenerationStep]
  cases retrievedChunksOf entry.2 (searchLabels entry.1 (o.encode request) 3) with
  | none => simp
  | some retrieved => simp

/-- Witness for claim C6 at a concrete one-entry cache. -/
theorem rag_cache_hit_no_rebuild_witness :
    cacheGet hitCache (cacheDocumentKey ['c'] ['u']) = some ([[0]], [['X']]) ∧
    ((ragExecute hitOracles hitCache ['c'] ['r'] ['u']).2.1 = hitCache ∧
      RagEvent.extractText ∉ (ragExecute hitOracles hitCache ['c'] ['r'] ['u']).2.2 ∧
      RagEvent.splitText ∉ (ragExecute hitOracles hitCache ['c'] ['r'] ['u']).2.2 ∧
      RagEvent.encodeChunks ∉ (ragExecute hitOracles hitCache ['c'] ['r'] ['u']).2.2 ∧
      RagEvent.cacheSet ∉ (ragExecute hitOracles hitCache ['c'] ['r'] ['u']).2.2) :=
  ⟨by decide,
    rag_cache_hit_no_rebuild hitOracles hitCache ['c'] ['r'] ['u'] ([[0]], [['X']])
      (by decide)⟩

theorem pyGet_ofNat {α : Type} (xs : List α) (j : Nat) (h : j < xs.length) :
    pyGet xs (j : Int) = xs.get? j := by
  have h0 : ¬((j : Int) < 0) := by omega
  have h1 : (0 : Int) ≤ (j : Int) ∧ (j : Int) < (xs.length : Int) := by
    constructor <;> omega
  simp [pyGet, h0, h1]

theorem pyGet_neg_one {α : Type} (xs : List α) (h : xs ≠ []) :
    pyGet xs (-1) = xs.get? (xs.length - 1) := by
  have hlen : 0 < xs.length := List.length_pos.mpr h
  have h0 : ((-1 : Int) < 0) := by omega
  have h1 : (0 : Int) ≤ (-1 + (xs.length : Int)) ∧ (-1 + (xs.length : Int)) < (xs.length : Int) := by
    constructor <;> omega
  have h2 : (-1 + (xs.length : Int)).toNat = xs.length - 1 := by omega
  simp [pyGet, h0, h1, h2]

theorem pyGet_isSome_mem {α : Type} (xs : List α) (i : Int) (a : α)
    (h : pyGet xs i = some a) : a ∈ xs := by
  simp only [pyGet] at h
  split at h <;> split at h
  · exact List.get?_mem h
  · cases h
  · exact List.get?_mem h
  · cases h

theorem retrievedChunksOf_total {α : Type} (chunks : List α) (labels : List Int)
    (h : ∀ i ∈ labels, (pyGet chunks i).isSome) :
    ∃ l, retrievedChunksOf chunks labels = some l ∧ l.length = labels.length ∧
      (∀ c ∈ l, ∃ i ∈ labels, pyGet chunks i = some c) ∧
      (∀ i ∈ labels, ∃ c ∈ l, pyGet chunks i = some c) := by
  induction labels with
  | nil => exact ⟨[], rfl, rfl, by simp, by simp⟩
  | cons i is ih =>
    have hi := h i (List.mem_cons_self i is)
    obtain ⟨c, hc⟩ := Option.isSome_iff_exists.mp hi
    obtain ⟨l, hl, hlen, hfwd, hbwd⟩ := ih (fun j hj => h j (List.mem_cons_of_mem i hj))
    refine ⟨c :: l, ?_, by simp [hlen], ?_, ?_⟩
    · simp [retrievedChunksOf, hc, hl]
    · intro x hx
      rcases List.mem_cons.mp hx with h1 | h2
      · exact ⟨i, List.mem_cons_self i is, h1 ▸ hc⟩
      · obtain ⟨j, hj, hpg⟩ := hfwd x h2
        exact ⟨j, List.mem_cons_of_mem i hj, hpg⟩
    · intro j hj
      rcases List.mem_cons.mp hj with h1 | h2
      · exact ⟨c, List.mem_cons_self c l, h1 ▸ hc⟩
      · obtain ⟨x, hx, hpg⟩ := hbwd j h2
        exact ⟨x, List.mem_cons_of_mem c hx, hpg⟩

theorem searchLabels_split (xb : List (List Int)) (query : List Int) (k : Nat)
    (h : xb.length ≤ k) :
    ∃ pre, searchLabels xb query k = pre ++ List.replicate (k - xb.length) (-1 : Int) ∧
      pre.Perm ((List.range xb.length).map (fun n : Nat => (n : Int))) := by
  refine ⟨(List.insertionSort distLe
      (((xb.map (fun v => l2sq v query)).enum).map (fun p => ((p.1 : Int), p.2)))).map Prod.fst,
    ?_, ?_⟩
  · have hlen : ((List.insertionSort distLe
        (((xb.map (fun v => l2sq v query)).enum).map (fun p => ((p.1 : Int), p.2)))).map
          Prod.fst).length ≤ k := by
      simp only [List.length_map, List.length_insertionSort, List.enum_length]
      simpa using h
    simp only [searchLabels]
    rw [List.take_of_length_le hlen]
  · have hperm := (List.perm_insertionSort distLe
      (((xb.map (fun v => l2sq v query)).enum).map (fun p => ((p.1 : Int), p.2)))).map Prod.fst
    refine hperm.trans ?_
    have hfun : (Prod.fst ∘ fun p : Nat × Int => ((p.1 : Int), p.2))
        = ((fun n : Nat => (n : Int)) ∘ Prod.fst) := rfl
    rw [List.map_map, hfun, ← List.map_map, List.enum_map_fst, List.length_map]

/-- Claim C1 (amended): against an index of n chunks with 1 ≤ n < 3, the
retrieval step with k = 3 raises no error and returns a list of exactly 3
entries (not n); every entry is one of the available chunks and every
available chunk occurs in the list — the slots beyond n are filled through
faiss's -1 padding, which Python's negative indexing resolves to the last
chunk, so some chunk is returned more than once. -/
theorem rag_retrieval_small_chunk_count (chunks : List (List Char)) (xb : List (List Int))
    (query : List Int) (hlen : xb.length = chunks.length)
    (h1 : 1 ≤ chunks.length) (h3 : chunks.length < 3) :
    ∃ l, ragRetrieve chunks xb query = some l ∧ l.length = 3 ∧
      (∀ c ∈ l, c ∈ chunks) ∧ (∀ c ∈ chunks, c ∈ l) := by
  have hne : chunks ≠ [] := by
    intro hnil
    rw [hnil] at h1
    simp at h1
  have hle : xb.length ≤ 3 := by omega
  obtain ⟨pre, hsl, hperm⟩ := searchLabels_split xb query 3 hle
  have hmem_pre : ∀ i ∈ pre, ∃ j : Nat, j < chunks.length ∧ i = (j : Int) := by
    intro i hi
    have := hperm.mem_iff.mp hi
    obtain ⟨j, hj, hji⟩ := List.mem_map.mp this
    exact ⟨j, by rw [← hlen]; exact List.mem_range.mp hj, hji.symm⟩
  have hsome : ∀ i ∈ searchLabels xb query 3, (pyGet chunks i).isSome := by
    intro i hi
    rw [hsl] at hi
    rcases List.mem_append.mp hi with hpre | hpad
    · obtain ⟨j, hjlt, hji⟩ := hmem_pre i hpre
      rw [hji, pyGet_ofNat chunks j hjlt, List.get?_eq_get hjlt]
      rfl
    · have : i = (-1 : Int) := List.eq_of_mem_replicate hpad
      rw [this, pyGet_neg_one chunks hne,
        List.get?_eq_get (by omega : chunks.length - 1 < chunks.length)]
      rfl
  obtain ⟨l, hl, hllen, hfwd, hbwd⟩ := retrievedChunksOf_total chunks (searchLabels xb query 3) hsome
  refine ⟨l, hl, ?_, ?_, ?_⟩
  · rw [hllen, hsl, List.length_append, List.length_replicate, hperm.length_eq,
      List.length_map, List.length_range]
    omega
  · intro c hc
    obtain ⟨i, _, hpg⟩ := hfwd c hc
    exact pyGet_isSome_mem chunks i c hpg
  · intro c hc
    obtain ⟨j, hj⟩ := List.mem_iff_get?.mp hc
    have hjlt : j < chunks.length := by
      by_contra hge
      rw [List.get?_eq_none.mpr (by omega)] at hj
      cases hj
    have hjmem : (j : Int) ∈ searchLabels xb query 3 := by
      rw [hsl]
      refine List.mem_append.mpr (Or.inl ?_)
      refine hperm.mem_iff.mpr ?_
      refine List.mem_map.mpr ⟨j, ?_, rfl⟩
      rw [List.mem_range, hlen]
      exact hjlt
    obtain ⟨x, hx, hpg⟩ := hbwd (j : Int) hjmem
    rw [pyGet_ofNat chunks j hjlt, hj] at hpg
    cases hpg
    exact hx

/-- Witness for the amended claim C1 at a concrete 2-chunk document. -/
theorem rag_retrieval_small_chunk_count_witness :
    ([[(0 : Int)], [(1 : Int)]] : List (List Int)).length
        = ([['A'], ['B']] : List (List Char)).length ∧
    1 ≤ ([['A'], ['B']] : List (List Char)).length ∧
    ([['A'], ['B']] : List (List Char)).length < 3 ∧
    (∃ l, ragRetrieve [['A'], ['B']] [[(0 : Int)], [(1 : Int)]] [(0 : Int)] = some l ∧
      l.length = 3 ∧
      (∀ c ∈ l, c ∈ ([['A'], ['B']] : List (List Char))) ∧
      (∀ c ∈ ([['A'], ['B']] : List (List Char)), c ∈ l)) :=
  ⟨rfl, by decide, by decide,
    rag_retrieval_small_chunk_count [['A'], ['B']] [[(0 : Int)], [(1 : Int)]] [(0 : Int)]
      rfl (by decide) (by decide)⟩

/-- Claim C1 (counterexample): a retrieval query against a cached 2-chunk
document with k = 3 does not return exactly 2 chunks: it returns 3 entries,
the second chunk twice — faiss pads the missing third neighbour with label
-1 and Python's chunks[-1] is the last chunk. -/
theorem rag_retrieval_duplicate_counterexample :
    ragRetrieve [['A'], ['B']] [[(0 : Int)], [(1 : Int)]] [(0 : Int)]
        = some [['A'], ['B'], ['B']] ∧
    ([['A'], ['B'], ['B']] : List (List Char)).length ≠ 2 := by
  constructor
  · decide
  · decide
